import Mathlib

/-!
Verification development for the HTML knowledge-base extraction pipeline.

The Python sources are shallowly embedded: Python `str` becomes `String`
(ASCII behaviour for `lower()`), Python `dict` becomes an association list
with in-place update, `None`-able values become `Option`, raising code
returns `Except`/`Option`.  A dict key that is absent and a key bound to
`None` are modelled identically (as `none`), matching how the code reads
them via `.get(k, default)` / `or` coercions in every modelled branch.
All recursion is structural or fuel-bounded so that every definition is
executable.
-/

namespace HtmlKB

/-! ## Generic string helpers (ASCII model of Python str operations) -/

/-- ASCII lower-casing, the model of Python `str.lower()` used throughout. -/
def low (c : Char) : Char :=
  if c = 'A' then 'a' else if c = 'B' then 'b' else if c = 'C' then 'c'
  else if c = 'D' then 'd' else if c = 'E' then 'e' else if c = 'F' then 'f'
  else if c = 'G' then 'g' else if c = 'H' then 'h' else if c = 'I' then 'i'
  else if c = 'J' then 'j' else if c = 'K' then 'k' else if c = 'L' then 'l'
  else if c = 'M' then 'm' else if c = 'N' then 'n' else if c = 'O' then 'o'
  else if c = 'P' then 'p' else if c = 'Q' then 'q' else if c = 'R' then 'r'
  else if c = 'S' then 's' else if c = 'T' then 't' else if c = 'U' then 'u'
  else if c = 'V' then 'v' else if c = 'W' then 'w' else if c = 'X' then 'x'
  else if c = 'Y' then 'y' else if c = 'Z' then 'z' else c

/-- Model of Python `str.lower()`. -/
def lowerStr (s : String) : String := ⟨s.data.map low⟩

/-- Python `\s` / `str.strip()` whitespace (ASCII part). -/
def isPySpace (c : Char) : Bool :=
  c = ' ' || c = '\t' || c = '\n' || c = '\r' || c = '\x0b' || c = '\x0c'

/-- `prefEq n l` holds when list `n` is an initial segment of `l`. -/
def prefEq : List Char → List Char → Bool
  | [], _ => true
  | _ :: _, [] => false
  | a :: as, b :: bs => a = b && prefEq as bs

/-- Model of Python `needle in hay` (substring containment). -/
def isSubL (n : List Char) : List Char → Bool
  | [] => prefEq n []
  | c :: t => prefEq n (c :: t) || isSubL n t

/-- Substring containment on strings. -/
def hasSub (needle hay : String) : Bool := isSubL needle.data hay.data

/-- Model of Python `s.endswith(suf)`. -/
def endsW (suf s : String) : Bool := prefEq suf.data.reverse s.data.reverse

/-- Python `str.strip()` (both ends, default whitespace). -/
def pyStrip (s : String) : String :=
  ⟨((s.data.dropWhile isPySpace).reverse.dropWhile isPySpace).reverse⟩

/-- Python `str.split()` without arguments: split on whitespace runs. -/
def pySplit (s : String) : List String :=
  (s.split (fun c => isPySpace c)).filter (fun p => p ≠ "")

/-- Decimal digits of a natural number, the model of Python `str(n)` for
natural `n` (used by the id-disambiguation loop). -/
def digitChar (d : Nat) : Char :=
  match d with
  | 0 => '0' | 1 => '1' | 2 => '2' | 3 => '3' | 4 => '4'
  | 5 => '5' | 6 => '6' | 7 => '7' | 8 => '8' | _ => '9'

/-- Fuel-bounded digit production; `fuel = n + 1` always suffices. -/
def digitsGo : Nat → Nat → List Char
  | 0, _ => []
  | fuel + 1, n =>
    if n < 10 then [digitChar n]
    else digitsGo fuel (n / 10) ++ [digitChar (n % 10)]

def digitsOf (n : Nat) : List Char := digitsGo (n + 1) n

/-- Decimal reading, the left inverse of `digitsOf`. -/
def digitVal (c : Char) : Nat := c.toNat - 48

def decodeDigits (l : List Char) : Nat := l.foldl (fun a c => 10 * a + digitVal c) 0

def natStr (n : Nat) : String := ⟨digitsOf n⟩

/-! ## Image filter (`processors/image_filter.py`)

`ImgRec` is one entry of the `images` array of `mapping.json` as the code
reads it.  Absent keys and `None` values coincide with the defaults the
code supplies (`or ""` / `or 0` / `.get(k, d)`). -/

structure ImgRec where
  index : Nat
  src : Option String
  alt : String
  width : Option Nat
  height : Option Nat
  local_path : Option String
  file_size : Nat
deriving Repr

structure FilteredImage where
  index : Nat
  local_path : String
  src : String
  alt : String
  width : Option Nat
  height : Option Nat
  file_size : Nat
  file_type : String
deriving Repr, DecidableEq

structure SkippedImage where
  index : Nat
  local_path : String
  skip_reason : String
  pattern_matched : Option String
  dimensions : Option String
deriving Repr, DecidableEq

/-- `Path(local_path).suffix.lstrip('.').lower()` (POSIX paths): the
characters after the last dot of the final path component, provided that
dot is neither the component's first nor last character. -/
def fileTypeOf (lp : String) : String :=
  let rname := lp.data.reverse.takeWhile (fun c => c ≠ '/')
  let pre := rname.takeWhile (fun c => c ≠ '.')
  if pre.length = rname.length then ""
  else if pre.length = 0 then ""
  else if pre.length + 1 = rname.length then ""
  else ⟨pre.reverse.map low⟩

def allowedExt (ft : String) : Bool := ft = "jpg" || ft = "jpeg" || ft = "png"

/-- `IMAGE_FILTER_CONFIG["skip_url_patterns"]` from `config.py`. -/
def skip_url_patterns : List String :=
  ["icn-close", "icn-nav-", "icn-carousel", "rlcdn.com", "analytics",
   "bat.bing", "t.co/i/adsct", "facebook.com/tr", "googleadservices",
   "doubleclick.net"]

/-- The tracking-domain list hard-coded in `_should_skip`. -/
def tracking_domains : List String :=
  ["rlcdn.com", "analytics", "bat.bing", "t.co", "facebook.com/tr",
   "googleadservices", "doubleclick", "pixel"]

/-- `IMAGE_FILTER_CONFIG["skip_alt_patterns"]` from `config.py`. -/
def skip_alt_patterns : List String := ["logo", "icon", "arrow", "close", "menu"]

/-- The icon-path marker list hard-coded in `_should_skip`. -/
def icon_patterns : List String := ["icn-", "icon-", "/icons/", "\\icons\\"]

def imgWidth (img : ImgRec) : Nat := img.width.getD 0
def imgHeight (img : ImgRec) : Nat := img.height.getD 0
def imgSrcLow (img : ImgRec) : String := lowerStr (img.src.getD "")
def imgPathLow (img : ImgRec) : String := lowerStr (img.local_path.getD "")

/-- Check: SVG files (Claude Vision does not support SVG). -/
def checkSvg (img : ImgRec) : Option (String × String) :=
  if endsW ".svg" (imgPathLow img) || endsW ".svg" (imgSrcLow img) then
    some ("svg_not_supported", "SVG format not supported by Vision API")
  else none

/-- Check: tracking pixels (1x1 or very small). -/
def checkTrackingPixel (img : ImgRec) : Option (String × String) :=
  if imgWidth img ≤ 2 && imgHeight img ≤ 2 then
    some ("tracking_pixel", natStr (imgWidth img) ++ "x" ++ natStr (imgHeight img))
  else none

/-- Check: minimum dimensions (config defaults 50x50). -/
def checkTinyIcon (img : ImgRec) : Option (String × String) :=
  if imgWidth img ≠ 0 && imgHeight img ≠ 0 && imgWidth img < 50 && imgHeight img < 50 then
    some ("tiny_icon", natStr (imgWidth img) ++ "x" ++ natStr (imgHeight img) ++ " < 50x50")
  else none

/-- Check: minimum file size (config default 500 bytes). -/
def checkTinyFile (img : ImgRec) : Option (String × String) :=
  if 0 < img.file_size && img.file_size < 500 then
    some ("tiny_file", natStr img.file_size ++ " < 500 bytes")
  else none

/-- Check: configured URL patterns. -/
def checkUrlPattern (img : ImgRec) : Option (String × String) :=
  (skip_url_patterns.find? (fun p => hasSub (lowerStr p) (imgSrcLow img))).map
    (fun p => ("ui_pattern", p))

/-- Check: analytics/tracking domains. -/
def checkTrackingUrl (img : ImgRec) : Option (String × String) :=
  (tracking_domains.find? (fun d => hasSub d (imgSrcLow img))).map
    (fun d => ("tracking_url", d))

/-- Check: short alt text exactly matching a decorative pattern. -/
def checkAltPattern (img : ImgRec) : Option (String × String) :=
  let alt := lowerStr img.alt
  if alt ≠ "" && (pySplit alt).length ≤ 2 then
    (skip_alt_patterns.find? (fun p => alt = p || alt = p ++ " icon")).map
      (fun p => ("alt_pattern", p))
  else none

/-- `width and height and (width > 100 or height > 100)`: the feature-icon
forgiveness condition of the icon-path rule. -/
def iconBig (img : ImgRec) : Bool :=
  imgWidth img ≠ 0 && imgHeight img ≠ 0 &&
    (100 < imgWidth img || 100 < imgHeight img)

/-- The loop over icon-path markers; a marker is forgiven when both
dimensions are truthy and either exceeds 100. -/
def iconLoop (big : Bool) (lp : String) : List String → Option (String × String)
  | [] => none
  | p :: rest =>
    if hasSub p lp then
      if big then iconLoop big lp rest else some ("icon_path", p)
    else iconLoop big lp rest

def checkIconPath (img : ImgRec) : Option (String × String) :=
  iconLoop (iconBig img) (imgPathLow img) icon_patterns

/-- First hit of a sequence of early-return checks. -/
def firstSome : List (Option (String × String)) → Option (String × String)
  | [] => none
  | o :: rest =>
    match o with
    | some r => some r
    | none => firstSome rest

/-- `ImageFilter._should_skip`, the in-order check chain. -/
def should_skip (img : ImgRec) : Option (String × String) :=
  firstSome [checkSvg img, checkTrackingPixel img, checkTinyIcon img,
    checkTinyFile img, checkUrlPattern img, checkTrackingUrl img,
    checkAltPattern img, checkIconPath img]

/-- The decision the `filter_images` loop body takes for one image. -/
def decideImage (img : ImgRec) : Sum FilteredImage SkippedImage :=
  let lp := img.local_path.getD ""
  if lp = "" then
    .inr ⟨img.index, "unknown", "missing_local_path",
          some ⟨((img.src.getD "no_src").data.take 100)⟩, none⟩
  else
    let ft := fileTypeOf lp
    if ¬ allowedExt ft then
      .inr ⟨img.index, lp, "unsupported_format",
            some (if ft = "" then "no_extension" else ft), none⟩
    else
      match should_skip img with
      | some (reason, pat) =>
        .inr ⟨img.index, lp, reason, some pat,
              if reason = "tracking_pixel" then
                some (natStr (imgWidth img) ++ "x" ++ natStr (imgHeight img))
              else none⟩
      | none =>
        .inl ⟨img.index, lp, img.src.getD "", img.alt, img.width, img.height,
              img.file_size, ft⟩

/-- `ImageFilter.filter_images`: the loop appends each image's record to
exactly one of the two output lists. -/
def filter_images : List ImgRec → List FilteredImage × List SkippedImage
  | [] => ([], [])
  | img :: rest =>
    let r := filter_images rest
    match decideImage img with
    | .inl f => (f :: r.1, r.2)
    | .inr s => (r.1, s :: r.2)

/-- The fixed enumeration of skip reasons (spec §3 `SkippedImage`). -/
def skipReasonEnum : List String :=
  ["missing_local_path", "unsupported_format", "svg_not_supported",
   "tracking_pixel", "tiny_icon", "tiny_file", "ui_pattern", "tracking_url",
   "alt_pattern", "icon_path"]

/-! ## JSON values and `json.loads` (model of the Python stdlib parser)

Number tokens keep their raw spelling: no claim inspects numeric values,
only parse success and structure. -/

inductive Json where
  | null : Json
  | bool : Bool → Json
  | num : String → Json
  | str : String → Json
  | arr : List Json → Json
  | obj : List (String × Json) → Json
deriving Inhabited

def jsonWs (c : Char) : Bool := c = ' ' || c = '\t' || c = '\n' || c = '\r'

def skipJsonWs (l : List Char) : List Char := l.dropWhile jsonWs

def isDigitCh (c : Char) : Bool := '0' ≤ c && c ≤ '9'

def isHexCh (c : Char) : Bool :=
  isDigitCh c || ('a' ≤ c && c ≤ 'f') || ('A' ≤ c && c ≤ 'F')

def hexVal (c : Char) : Nat :=
  if isDigitCh c then c.toNat - 48
  else if 'a' ≤ c && c ≤ 'f' then c.toNat - 87
  else c.toNat - 55

/-- Parse a JSON string body (after the opening quote), fuel-bounded. -/
def pString : Nat → List Char → Option (String × List Char)
  | 0, _ => none
  | _ + 1, [] => none
  | fuel + 1, c :: rest =>
    if c = '"' then some ("", rest)
    else if c = '\\' then
      match rest with
      | [] => none
      | e :: rest2 =>
        let esc : Option (Char × List Char) :=
          if e = '"' then some ('"', rest2)
          else if e = '\\' then some ('\\', rest2)
          else if e = '/' then some ('/', rest2)
          else if e = 'b' then some ('\x08', rest2)
          else if e = 'f' then some ('\x0c', rest2)
          else if e = 'n' then some ('\n', rest2)
          else if e = 'r' then some ('\r', rest2)
          else if e = 't' then some ('\t', rest2)
          else if e = 'u' then
            match rest2 with
            | h1 :: h2 :: h3 :: h4 :: rest3 =>
              if isHexCh h1 && isHexCh h2 && isHexCh h3 && isHexCh h4 then
                some (Char.ofNat
                  (((hexVal h1 * 16 + hexVal h2) * 16 + hexVal h3) * 16 + hexVal h4), rest3)
              else none
            | _ => none
          else none
        match esc with
        | none => none
        | some (ch, rest') =>
          match pString fuel rest' with
          | some (s, rem) => some (⟨ch :: s.data⟩, rem)
          | none => none
    else if c.toNat < 32 then none
    else
      match pString fuel rest with
      | some (s, rem) => some (⟨c :: s.data⟩, rem)
      | none => none

/-- Parse the digits/fraction/exponent tail of a JSON number (strict
`json` grammar: `-? (0|[1-9][0-9]*) (\.[0-9]+)? ([eE][+-]?[0-9]+)?`). -/
def pNumber (l : List Char) : Option (String × List Char) :=
  let (sign, l1) := match l with
    | '-' :: t => (['-'], t)
    | _ => (([] : List Char), l)
  let intPart := l1.takeWhile isDigitCh
  let l2 := l1.drop intPart.length
  if intPart.length = 0 then none
  else if 1 < intPart.length && intPart.headD '0' = '0' then none
  else
    let (frac, l3) :=
      match l2 with
      | '.' :: t =>
        let ds := t.takeWhile isDigitCh
        if ds.length = 0 then (([] : List Char), l2)
        else ('.' :: ds, t.drop ds.length)
      | _ => (([] : List Char), l2)
    let (ex, l4) :=
        match l3 with
        | e :: t =>
          if e = 'e' || e = 'E' then
            let (sg, t1) := match t with
              | '+' :: t2 => (['+'], t2)
              | '-' :: t2 => (['-'], t2)
              | _ => (([] : List Char), t)
            let ds := t1.takeWhile isDigitCh
            if ds.length = 0 then (([] : List Char), l3)
            else (e :: (sg ++ ds), t1.drop ds.length)
          else (([] : List Char), l3)
        | _ => (([] : List Char), l3)
    some (⟨sign ++ intPart ++ frac ++ ex⟩, l4)

mutual

/-- Parse one JSON value; the input starts at a non-whitespace position. -/
def pValue : Nat → List Char → Option (Json × List Char)
  | 0, _ => none
  | _ + 1, [] => none
  | fuel + 1, c :: rest =>
    if c = '"' then
      match pString fuel rest with
      | some (s, rem) => some (.str s, rem)
      | none => none
    else if c = '\x7b' then pObject fuel (skipJsonWs rest)
    else if c = '[' then pArray fuel (skipJsonWs rest)
    else if prefEq "true".data (c :: rest) then some (.bool true, (c :: rest).drop 4)
    else if prefEq "false".data (c :: rest) then some (.bool false, (c :: rest).drop 5)
    else if prefEq "null".data (c :: rest) then some (.null, (c :: rest).drop 4)
    else if prefEq "NaN".data (c :: rest) then some (.num "NaN", (c :: rest).drop 3)
    else if prefEq "Infinity".data (c :: rest) then some (.num "Infinity", (c :: rest).drop 8)
    else if prefEq "-Infinity".data (c :: rest) then some (.num "-Infinity", (c :: rest).drop 9)
    else if c = '-' || isDigitCh c then
      match pNumber (c :: rest) with
      | some (s, rem) => some (.num s, rem)
      | none => none
    else none

/-- Parse object members; the input starts after `{` with whitespace
skipped. -/
def pObject : Nat → List Char → Option (Json × List Char)
  | 0, _ => none
  | _ + 1, [] => none
  | fuel + 1, c :: rest =>
    if c = '\x7d' then some (.obj [], rest)
    else
      match pMembers fuel (c :: rest) with
      | some (ms, rem) => some (.obj ms, rem)
      | none => none

def pMembers : Nat → List Char → Option (List (String × Json) × List Char)
  | 0, _ => none
  | fuel + 1, l =>
    match l with
    | '"' :: rest =>
      match pString fuel rest with
      | some (k, rem) =>
        match skipJsonWs rem with
        | ':' :: rem2 =>
          match pValue fuel (skipJsonWs rem2) with
          | some (v, rem3) =>
            match skipJsonWs rem3 with
            | ',' :: rem4 =>
              match pMembers fuel (skipJsonWs rem4) with
              | some (ms, rem5) => some ((k, v) :: ms, rem5)
              | none => none
            | '\x7d' :: rem4 => some ([(k, v)], rem4)
            | _ => none
          | none => none
        | _ => none
      | none => none
    | _ => none

/-- Parse array elements; the input starts after `[` with whitespace
skipped. -/
def pArray : Nat → List Char → Option (Json × List Char)
  | 0, _ => none
  | _ + 1, [] => none
  | fuel + 1, c :: rest =>
    if c = ']' then some (.arr [], rest)
    else
      match pElems fuel (c :: rest) with
      | some (vs, rem) => some (.arr vs, rem)
      | none => none

def pElems : Nat → List Char → Option (List Json × List Char)
  | 0, _ => none
  | fuel + 1, l =>
    match pValue fuel l with
    | some (v, rem) =>
      match skipJsonWs rem with
      | ',' :: rem2 =>
        match pElems fuel (skipJsonWs rem2) with
        | some (vs, rem3) => some (v :: vs, rem3)
        | none => none
      | ']' :: rem2 => some ([v], rem2)
      | _ => none
    | none => none

end

/-- Model of `json.loads`: whole input must be consumed. -/
def jsonParse (s : String) : Option Json :=
  match pValue (2 * s.length + 2) (skipJsonWs s.data) with
  | some (v, rem) => if skipJsonWs rem = [] then some v else none
  | none => none

/-! ## `ClaudeClient.parse_json_response` and its helpers (`llm/client.py`) -/

/-- Index of the first occurrence of `needle` in a character list. -/
def findSub (needle : List Char) : List Char → Option Nat
  | [] => if prefEq needle [] then some 0 else none
  | c :: t => if prefEq needle (c :: t) then some 0 else (findSub needle t).map (· + 1)

/-- The fenced-code-block extraction regex: content of the first
``` fence (optionally tagged `json`), leading `\s*` skipped and the
lazily-matched group's trailing `\s*` stripped. -/
def codeBlockExtract (s : String) : Option String :=
  match findSub "```".data s.data with
  | none => none
  | some i =>
    let r0 := s.data.drop (i + 3)
    let r1 := if prefEq "json".data r0 then r0.drop 4 else r0
    let r2 := r1.dropWhile isPySpace
    match findSub "```".data r2 with
    | none => none
    | some j => some ⟨((r2.take j).reverse.dropWhile isPySpace).reverse⟩

/-- The raw-object regex `\{[\s\S]*\}`: greedy, so it spans from the first
`{` to the last `}` and only matches when a `}` occurs after a `{`. -/
def rawObjectExtract (s : String) : Option String :=
  match findSub ['\x7b'] s.data,
        (findSub ['\x7d'] s.data.reverse).map (fun k => s.data.length - 1 - k) with
  | some i, some j => if i < j then some ⟨(s.data.drop i).take (j - i + 1)⟩ else none
  | _, _ => none

/-- One pass of `re.sub(r',\s*C', 'C', s)` for a closing character `C`,
non-overlapping and left to right (fuel-bounded; one character of input is
consumed per step, so `length` fuel suffices). -/
def subCC (cl : Char) : Nat → List Char → List Char
  | 0, l => l
  | fuel + 1, l =>
    match l with
    | [] => []
    | c :: rest =>
      if c = ',' then
        let ws := rest.takeWhile isPySpace
        let r2 := rest.drop ws.length
        match r2 with
        | d :: r3 => if d = cl then cl :: subCC cl fuel r3 else c :: subCC cl fuel rest
        | [] => c :: subCC cl fuel rest
      else c :: subCC cl fuel rest

/-- `ClaudeClient._repair_json`: drop trailing commas before `}` and `]`. -/
def repair_json (s : String) : String :=
  let a := subCC '\x7d' s.data.length s.data
  ⟨subCC ']' a.length a⟩

/-- Scanner state of `_truncate_to_valid_json`. -/
structure TruncSt where
  db : Int
  dk : Int
  instr : Bool
  esc : Bool
  pos : Nat
  lastPos : Nat

def truncStep (st : TruncSt) (c : Char) : TruncSt :=
  let st' := { st with pos := st.pos + 1 }
  if st.esc then { st' with esc := false }
  else if c = '\\' then { st' with esc := true }
  else if c = '"' then { st' with instr := ¬ st.instr }
  else if st.instr then st'
  else if c = '\x7b' then { st' with db := st.db + 1 }
  else if c = '\x7d' then
    if st.db - 1 = 0 ∧ st.dk = 0 then { st' with db := st.db - 1, lastPos := st.pos + 1 }
    else { st' with db := st.db - 1 }
  else if c = '[' then { st' with dk := st.dk + 1 }
  else if c = ']' then { st' with dk := st.dk - 1 }
  else st'

/-- Does the anchored pattern `,\s*OPEN[^CLOSE]*$` match at the head? -/
def matchCut (openC closeC : Char) : List Char → Bool
  | ',' :: rest =>
    let r2 := rest.dropWhile isPySpace
    match r2 with
    | c :: r3 => c = openC && ¬ (r3.contains closeC)
    | [] => false
  | _ => false

def findCutIdx (openC closeC : Char) : List Char → Option Nat
  | [] => none
  | c :: t =>
    if matchCut openC closeC (c :: t) then some 0
    else (findCutIdx openC closeC t).map (· + 1)

/-- `re.sub(r',\s*OPEN[^CLOSE]*$', '', s)`: strip a trailing incomplete
fragment if present. -/
def cutPat (openC closeC : Char) (l : List Char) : List Char :=
  match findCutIdx openC closeC l with
  | some i => l.take i
  | none => l

/-- `ClaudeClient._truncate_to_valid_json`. -/
def truncate_to_valid_json (s : String) : Option String :=
  let st := s.data.foldl truncStep ⟨0, 0, false, false, 0, 0⟩
  if 0 < st.lastPos then some ⟨s.data.take st.lastPos⟩
  else if 0 < st.db ∨ 0 < st.dk then
    let t1 := cutPat '"' '"' s.data
    let t2 := cutPat '\x7b' '\x7d' t1
    let t3 := cutPat '[' ']' t2
    some ⟨t3 ++ List.replicate st.dk.toNat ']' ++ List.replicate st.db.toNat '\x7d'⟩
  else none

def takeLast (n : Nat) (s : String) : String := ⟨s.data.drop (s.data.length - n)⟩

def repairFailMsg (js : String) : String :=
  "Failed to parse JSON after repair attempts.\nError location: char ~" ++
    natStr js.length ++ "\nContent tail: ..." ++
    (if 200 < js.length then takeLast 200 js else js)

/-- `ClaudeClient.parse_json_response`: extraction, then the escalating
repair attempts; `Except.error` models a raised `ValueError`. -/
def parse_json_response (response : String) : Except String Json :=
  let extracted : Option String :=
    match codeBlockExtract response with
    | some g => some g
    | none => rawObjectExtract response
  match extracted with
  | none => .error ("No JSON found in response: " ++ (⟨response.data.take 500⟩ : String) ++ "...")
  | some js0 =>
    let js := pyStrip js0
    match jsonParse js with
    | some v => .ok v
    | none =>
      match jsonParse (repair_json js) with
      | some v => .ok v
      | none =>
        match truncate_to_valid_json js with
        | some t =>
          if t ≠ "" then
            match jsonParse t with
            | some v => .ok v
            | none => .error (repairFailMsg js)
          else .error (repairFailMsg js)
        | none => .error (repairFailMsg js)

/-! ## Association lists (model of Python `dict` entries in insertion
order, with in-place overwrite) -/

/-- `d.get(k)`: first binding of `k`. -/
def alookup {α : Type} : List (String × α) → String → Option α
  | [], _ => none
  | (k', v) :: t, k => if k' = k then some v else alookup t k

/-- `d[k] = v`: overwrite in place if the key exists, else append. -/
def aupd {α : Type} (m : List (String × α)) (k : String) (v : α) : List (String × α) :=
  if m.any (fun p => p.1 = k) then m.map (fun p => if p.1 = k then (k, v) else p)
  else m ++ [(k, v)]

/-! ## Knowledge-base sections (`models/schemas.py` `Section`) and
hierarchy reconstruction (`llm/kb_generator.py`) -/

structure SectionImage where
  image_id : String
  local_path : String
  category : String
  description : String

/-- `models.schemas.Section`: the recursive output node.  The open-ended
`data` dict is modelled as a `Json` association list. -/
inductive Section where
  | mk (id title : String) (level : Nat) (summary : String)
       (content : Option String) (key_points : List String)
       (images : List SectionImage) (subsections : List Section)
       (data : Option (List (String × Json))) : Section

def Section.id : Section → String | .mk i _ _ _ _ _ _ _ _ => i
def Section.title : Section → String | .mk _ t _ _ _ _ _ _ _ => t
def Section.level : Section → Nat | .mk _ _ l _ _ _ _ _ _ => l
def Section.summary : Section → String | .mk _ _ _ s _ _ _ _ _ => s
def Section.content : Section → Option String | .mk _ _ _ _ c _ _ _ _ => c
def Section.key_points : Section → List String | .mk _ _ _ _ _ k _ _ _ => k
def Section.images : Section → List SectionImage | .mk _ _ _ _ _ _ i _ _ => i
def Section.subsections : Section → List Section | .mk _ _ _ _ _ _ _ s _ => s
def Section.data : Section → Option (List (String × Json)) | .mk _ _ _ _ _ _ _ _ d => d

/-- A child entry of a `parent` group as produced by semantic grouping. -/
structure ChildD where
  id : Option String
  title : Option String
  level : Option Nat
  category : Option String
  section_type : Option String
deriving DecidableEq

/-- A grouped section as produced by semantic grouping. -/
structure GroupD where
  id : Option String
  title : Option String
  level : Option Nat
  type : Option String
  category : Option String
  children : List ChildD

/-- Python truthiness of `d.get('category')` for string-or-absent. -/
def catTruthy (o : Option String) : Bool := o.getD "" ≠ ""

/-- The case-insensitive title fallback of `_reconstruct_hierarchy`:
first extracted section (in insertion order) whose title matches. -/
def titleFind (m : List (String × Section)) (t : String) : Option Section :=
  (m.find? (fun p => lowerStr p.2.title = lowerStr t)).map (fun p => p.2)

/-- Three-tier resolution of a top-level group: id, then title, then an
empty placeholder. -/
def resolveSection (m : List (String × Section)) (g : GroupD) : Section :=
  match alookup m (g.id.getD "unknown") with
  | some s => s
  | none =>
    match titleFind m (g.title.getD "") with
    | some s => s
    | none =>
      Section.mk (g.id.getD "unknown") (g.title.getD "Unknown") (g.level.getD 1)
        "" none [] [] [] none

/-- Two-tier resolution of a child (id, then title); `none` means the
placeholder branch is taken. -/
def resolveChild (m : List (String × Section)) (c : ChildD) : Option Section :=
  match alookup m (c.id.getD "unknown") with
  | some s => some s
  | none => titleFind m (c.title.getD "")

/-- The per-child body of `_reconstruct_hierarchy`: resolve, then attach
the group's `category` into `data` when present, else synthesize the
placeholder child. -/
def rebuildChild (m : List (String × Section)) (glevel : Nat) (c : ChildD) : Section :=
  match resolveChild m c with
  | some s =>
    if catTruthy c.category then
      Section.mk s.id s.title s.level s.summary s.content s.key_points s.images
        s.subsections
        (some (aupd (s.data.getD []) "category" (Json.str (c.category.getD ""))))
    else s
  | none =>
    Section.mk (c.id.getD "unknown") (c.title.getD "Unknown") (glevel + 1) "" none [] [] []
      (if catTruthy c.category then some [("category", Json.str (c.category.getD ""))]
       else none)

/-- The per-group body of `_reconstruct_hierarchy`. -/
def reconstructGroup (m : List (String × Section)) (g : GroupD) : Section :=
  let s := resolveSection m g
  if g.type = some "parent" ∧ g.children ≠ [] then
    Section.mk s.id s.title s.level s.summary s.content s.key_points s.images
      (g.children.map (rebuildChild m (g.level.getD 1))) s.data
  else s

/-- `MultiCallKBGenerator._reconstruct_hierarchy`. -/
def reconstruct_hierarchy (groups : List GroupD) (m : List (String × Section)) :
    List Section :=
  groups.map (reconstructGroup m)

/-! ## Batched extraction loop of `MultiCallKBGenerator.generate`
(lines 134-181): batching, per-batch failure isolation.  The outcome of
`_extract_sections_batch` for batch `i` is supplied by an oracle, since it
is an LLM call. -/

/-- A flattened scheduled-section dict as read by the failure branch
(`s.get('id'/'title'/'level')`). -/
structure SchedD where
  id : Option String
  title : Option String
  level : Option Nat
deriving DecidableEq

/-- `SECTIONS_PER_BATCH = 4` chunking (fuel-bounded; the input length is
always enough fuel, since every round drops at least one element). -/
def chunksGo : Nat → List SchedD → List (List SchedD)
  | 0, _ => []
  | fuel + 1, l =>
    match l with
    | [] => []
    | a :: t => ((a :: t).take 4) :: chunksGo fuel ((a :: t).drop 4)

def chunks4 (l : List SchedD) : List (List SchedD) := chunksGo l.length l

/-- The placeholder section materialized for a scheduled section of a
failing batch. -/
def placeholderFor (s : SchedD) (e : String) : Section :=
  Section.mk (s.id.getD "unknown") (s.title.getD "Unknown") (s.level.getD 1)
    ("Error extracting section: " ++ (⟨e.data.take 100⟩ : String)) none [] [] [] none

/-- Key/value pairs the loop stores for batch `i`: extracted sections by
id on success, placeholders by scheduled id on failure. -/
def pairsOf (oracle : Nat → Except String (List Section)) (i : Nat)
    (b : List SchedD) : List (String × Section) :=
  match oracle i with
  | .ok secs => secs.map (fun s => (s.id, s))
  | .error e => b.map (fun s => (s.id.getD "unknown", placeholderFor s e))

def insertPairs (m : List (String × Section)) (ps : List (String × Section)) :
    List (String × Section) :=
  ps.foldl (fun acc p => aupd acc p.1 p.2) m

def runBatches (oracle : Nat → Except String (List Section)) :
    Nat → List (String × Section) → List (List SchedD) → List (String × Section)
  | _, m, [] => m
  | i, m, b :: bs => runBatches oracle (i + 1) (insertPairs m (pairsOf oracle i b)) bs

/-- The whole `extracted_sections` accumulation of `generate`. -/
def extract_sections_loop (oracle : Nat → Except String (List Section))
    (sections : List SchedD) : List (String × Section) :=
  runBatches oracle 0 [] (chunks4 sections)

/-- The keys the loop writes, batch by batch, starting at batch `i`. -/
def runKeys (oracle : Nat → Except String (List Section)) (i : Nat) :
    List (List SchedD) → List String
  | [] => []
  | b :: bs => (pairsOf oracle i b).map Prod.fst ++ runKeys oracle (i + 1) bs

/-! ## Image classifier reconciliation (`llm/image_classifier.py`) -/

/-- One per-image verdict of the model, as read via `.get`. -/
structure Classification where
  image_id : Option String
  includeFlag : Option Bool
  category : Option String
  description : Option String
  extracted_text : Option String
  stats : Option Json
  suggested_section : Option String
  exclusion_reason : Option String

structure ImageDescription where
  image_id : String
  local_path : String
  category : String
  description : String
  extracted_text : Option String
  stats : Option Json
  suggested_section : Option String

structure ExcludedImage where
  image_id : String
  local_path : String
  category : String
  exclusion_reason : String

/-- `INCLUDE_CATEGORIES` from `config.py`. -/
def INCLUDE_CATEGORIES : List String :=
  ["product_ui", "feature_icon", "stats_data", "testimonial_photo"]

/-- Zero-padded `f"img_{index:03d}"`. -/
def pad3 (n : Nat) : String :=
  ⟨List.replicate (3 - (digitsOf n).length) '0' ++ digitsOf n⟩

def imgId (img : FilteredImage) : String := "img_" ++ pad3 img.index

/-- Id reconciliation: exact map lookup, else the first image whose
decimal index is a substring of the returned id. -/
def findImage (idmap : List (String × FilteredImage)) (iid : String) :
    Option FilteredImage :=
  match alookup idmap iid with
  | some img => some img
  | none => (idmap.find? (fun p => isSubL (digitsOf p.2.index) iid.data)).map (fun p => p.2)

def mkIncluded (img : FilteredImage) (c : Classification) : ImageDescription :=
  ⟨imgId img, img.local_path, c.category.getD "decorative_other",
   c.description.getD "", c.extracted_text, c.stats, c.suggested_section⟩

def mkExcluded (img : FilteredImage) (c : Classification) : ExcludedImage :=
  ⟨imgId img, img.local_path, c.category.getD "decorative_other",
   c.exclusion_reason.getD "Classified as decorative"⟩

/-- The classification-processing loop of `ImageClassifier.classify_batch`
(after the response is parsed): unmatched ids are dropped, and the
category override forces inclusion for `INCLUDE_CATEGORIES`. -/
def classify_loop (cls : List Classification)
    (idmap : List (String × FilteredImage)) :
    List ImageDescription × List ExcludedImage :=
  match cls with
  | [] => ([], [])
  | c :: rest =>
    let r := classify_loop rest idmap
    match findImage idmap (c.image_id.getD "") with
    | none => r
    | some img =>
      if INCLUDE_CATEGORIES.contains (c.category.getD "decorative_other")
          || c.includeFlag.getD false then
        (mkIncluded img c :: r.1, r.2)
      else (r.1, mkExcluded img c :: r.2)

/-! ## Section ids (`processors/section_parser.py`) -/

/-- ASCII model of the regex word class `\w`. -/
def isWordCh (c : Char) : Bool := c.isAlphanum || c = '_'

/-- Run-collapsing for `re.sub(r'[\s-]+', '_', slug)`. -/
def collapseGo : List Char → Bool → List Char
  | [], _ => []
  | c :: rest, lastSep =>
    if isPySpace c || c = '-' then
      if lastSep then collapseGo rest true else '_' :: collapseGo rest true
    else c :: collapseGo rest false

/-- The slugification part of `_generate_unique_id`: lower-case, strip
trademark glyphs, drop non `\w`/space/hyphen characters, collapse
space/hyphen runs to `_`, strip `_`, truncate to 50, fallback
`"section"`. -/
def slugOf (title : String) : String :=
  let s1 := title.data.map low
  let s2 := s1.filter (fun c => ¬ (c = '®' ∨ c = '™' ∨ c = '©'))
  let s3 := s2.filter (fun c => isWordCh c || isPySpace c || c = '-')
  let s4 := collapseGo s3 false
  let s5 := ((s4.dropWhile (fun c => c = '_')).reverse.dropWhile (fun c => c = '_')).reverse
  let s6 := s5.take 50
  if s6 = [] then "section" else ⟨s6⟩

/-- Candidate `k = 0` is the slug itself, `k ≥ 1` appends `_k`. -/
def candSlug (b : String) (k : Nat) : String :=
  if k = 0 then b else b ++ "_" ++ natStr k

/-- The disambiguation `while slug in seen_ids` loop: first candidate not
in the seen set, searched with enough fuel to be guaranteed to land. -/
def searchFresh (b : String) (seen : List String) : Nat → Nat → Option String
  | 0, _ => none
  | fuel + 1, k =>
    if candSlug b k ∈ seen then searchFresh b seen fuel (k + 1)
    else some (candSlug b k)

/-- `SectionParser._generate_unique_id`: returns the fresh slug and the
grown seen-set (the fallback arm is provably unreachable). -/
def generate_unique_id (title : String) (seen : List String) : String × List String :=
  let b := slugOf title
  match searchFresh b seen (seen.length + 2) 0 with
  | some s => (s, s :: seen)
  | none => (b, b :: seen)

/-- The id stream of one `parse()` call: every emitted section's id comes
from `_generate_unique_id` threaded through the one parse-scoped seen-set
(heading sections first, then the synthetic cta/testimonial titles). -/
def genIds : List String → List String → List String
  | [], _ => []
  | t :: ts, seen =>
    let p := generate_unique_id t seen
    p.1 :: genIds ts p.2

/-- All ids of one `parse()` call, which starts from an empty seen-set. -/
def parseIds (titles : List String) : List String := genIds titles []

/-! ## Helper lemmas -/

theorem low_eq_dot {c : Char} (h : low c = '.') : c = '.' := by
  by_cases e1 : c = 'A'; · subst e1; exact absurd h (by decide)
  by_cases e2 : c = 'B'; · subst e2; exact absurd h (by decide)
  by_cases e3 : c = 'C'; · subst e3; exact absurd h (by decide)
  by_cases e4 : c = 'D'; · subst e4; exact absurd h (by decide)
  by_cases e5 : c = 'E'; · subst e5; exact absurd h (by decide)
  by_cases e6 : c = 'F'; · subst e6; exact absurd h (by decide)
  by_cases e7 : c = 'G'; · subst e7; exact absurd h (by decide)
  by_cases e8 : c = 'H'; · subst e8; exact absurd h (by decide)
  by_cases e9 : c = 'I'; · subst e9; exact absurd h (by decide)
  by_cases e10 : c = 'J'; · subst e10; exact absurd h (by decide)
  by_cases e11 : c = 'K'; · subst e11; exact absurd h (by decide)
  by_cases e12 : c = 'L'; · subst e12; exact absurd h (by decide)
  by_cases e13 : c = 'M'; · subst e13; exact absurd h (by decide)
  by_cases e14 : c = 'N'; · subst e14; exact absurd h (by decide)
  by_cases e15 : c = 'O'; · subst e15; exact absurd h (by decide)
  by_cases e16 : c = 'P'; · subst e16; exact absurd h (by decide)
  by_cases e17 : c = 'Q'; · subst e17; exact absurd h (by decide)
  by_cases e18 : c = 'R'; · subst e18; exact absurd h (by decide)
  by_cases e19 : c = 'S'; · subst e19; exact absurd h (by decide)
  by_cases e20 : c = 'T'; · subst e20; exact absurd h (by decide)
  by_cases e21 : c = 'U'; · subst e21; exact absurd h (by decide)
  by_cases e22 : c = 'V'; · subst e22; exact absurd h (by decide)
  by_cases e23 : c = 'W'; · subst e23; exact absurd h (by decide)
  by_cases e24 : c = 'X'; · subst e24; exact absurd h (by decide)
  by_cases e25 : c = 'Y'; · subst e25; exact absurd h (by decide)
  by_cases e26 : c = 'Z'; · subst e26; exact absurd h (by decide)
  have hfix : low c = c := by
    unfold low
    rw [if_neg e1, if_neg e2, if_neg e3, if_neg e4, if_neg e5, if_neg e6,
        if_neg e7, if_neg e8, if_neg e9, if_neg e10, if_neg e11, if_neg e12,
        if_neg e13, if_neg e14, if_neg e15, if_neg e16, if_neg e17, if_neg e18,
        if_neg e19, if_neg e20, if_neg e21, if_neg e22, if_neg e23, if_neg e24,
        if_neg e25, if_neg e26]
  rw [hfix] at h
  exact h

theorem low_g_ne {c : Char} (h : low c = 'g') : c ≠ '/' ∧ c ≠ '.' := by
  constructor <;> rintro rfl <;> exact absurd h (by decide)

theorem low_v_ne {c : Char} (h : low c = 'v') : c ≠ '/' ∧ c ≠ '.' := by
  constructor <;> rintro rfl <;> exact absurd h (by decide)

theorem low_s_ne {c : Char} (h : low c = 's') : c ≠ '/' ∧ c ≠ '.' := by
  constructor <;> rintro rfl <;> exact absurd h (by decide)

/-- Core of the extension-gate argument, phrased over the reversed
character list of the local path: if (after lower-casing) it starts with
`g v s .`, then the suffix computation of `fileTypeOf` yields `""` or
`"svg"`, neither of which is allowed. -/
theorem svg_core (l : List Char) (h : prefEq ['g', 'v', 's', '.'] (l.map low) = true) :
    allowedExt
      (let rname := l.takeWhile (fun c => c ≠ '/')
       let pre := rname.takeWhile (fun c => c ≠ '.')
       if pre.length = rname.length then ""
       else if pre.length = 0 then ""
       else if pre.length + 1 = rname.length then ""
       else (⟨pre.reverse.map low⟩ : String)) = false := by
  rcases l with _ | ⟨c4, _ | ⟨c3, _ | ⟨c2, _ | ⟨c1, R⟩⟩⟩⟩
  · simp [prefEq] at h
  · simp [prefEq] at h
  · simp [prefEq] at h
  · simp [prefEq] at h
  · simp only [List.map_cons, prefEq, Bool.and_eq_true, decide_eq_true_eq] at h
    obtain ⟨h4, h3, h2, h1, -⟩ := h
    have e1 : c1 = '.' := low_eq_dot h1.symm
    obtain ⟨n4s, n4d⟩ := low_g_ne h4.symm
    obtain ⟨n3s, n3d⟩ := low_v_ne h3.symm
    obtain ⟨n2s, n2d⟩ := low_s_ne h2.symm
    subst e1
    have hr : (c4 :: c3 :: c2 :: '.' :: R).takeWhile (fun c => c ≠ '/') =
        c4 :: c3 :: c2 :: '.' :: (R.takeWhile (fun c => c ≠ '/')) := by
      simp [List.takeWhile_cons, n4s, n3s, n2s]
    have hp : (c4 :: c3 :: c2 :: '.' :: (R.takeWhile (fun c => c ≠ '/'))).takeWhile
        (fun c => c ≠ '.') = [c4, c3, c2] := by
      simp [List.takeWhile_cons, n4d, n3d, n2d]
    simp only [hr, hp]
    simp only [List.length_cons, List.length_nil]
    by_cases hk : (List.takeWhile (fun c => c ≠ '/') R).length = 0
    · rw [if_neg (by omega), if_neg (by omega), if_pos (by omega)]
      decide
    · rw [if_neg (by omega), if_neg (by omega), if_neg (by omega)]
      have hm : ([c4, c3, c2].reverse.map low) = ['s', 'v', 'g'] := by
        simp [← h2, ← h3, ← h4]
      rw [hm]
      decide

/-- An image whose lower-cased local path ends in `.svg` never has an
allowed file type: the extension gate fires first. -/
theorem svg_end_not_allowed (lp : String) (h : endsW ".svg" (lowerStr lp) = true) :
    allowedExt (fileTypeOf lp) = false := by
  have e : (".svg".data.reverse) = ['g', 'v', 's', '.'] := rfl
  unfold endsW at h
  rw [e] at h
  have e2 : (lowerStr lp).data.reverse = List.map low lp.data.reverse := by
    unfold lowerStr
    exact (List.map_reverse low lp.data).symm
  rw [e2] at h
  unfold fileTypeOf
  exact svg_core lp.data.reverse h

theorem firstSome_cons_some {o : Option (String × String)} {rest v} (h : o = some v) :
    firstSome (o :: rest) = some v := by rw [h]; rfl

theorem firstSome_cons_none {o : Option (String × String)} {rest} (h : o = none) :
    firstSome (o :: rest) = firstSome rest := by rw [h]; rfl

theorem firstSome_nil : firstSome [] = none := rfl

theorem checkSvg_some {img : ImgRec} {r p : String} (h : checkSvg img = some (r, p)) :
    r = "svg_not_supported" ∧
      (endsW ".svg" (imgPathLow img) || endsW ".svg" (imgSrcLow img)) = true := by
  unfold checkSvg at h
  by_cases hc : (endsW ".svg" (imgPathLow img) || endsW ".svg" (imgSrcLow img)) = true
  · rw [if_pos hc] at h
    injection h with h2
    injection h2 with ha hb
    exact ⟨ha.symm, hc⟩
  · rw [if_neg hc] at h
    cases h

theorem checkTrackingPixel_some {img : ImgRec} {r p : String}
    (h : checkTrackingPixel img = some (r, p)) :
    r = "tracking_pixel" ∧ imgWidth img ≤ 2 ∧ imgHeight img ≤ 2 := by
  unfold checkTrackingPixel at h
  by_cases hc : (imgWidth img ≤ 2 && imgHeight img ≤ 2) = true
  · rw [if_pos hc] at h
    injection h with h2
    injection h2 with ha hb
    simp only [Bool.and_eq_true, decide_eq_true_eq] at hc
    exact ⟨ha.symm, hc⟩
  · rw [if_neg hc] at h
    cases h

theorem checkTinyIcon_some {img : ImgRec} {r p : String}
    (h : checkTinyIcon img = some (r, p)) : r = "tiny_icon" := by
  unfold checkTinyIcon at h
  split_ifs at h
  injection h with h2
  injection h2 with ha hb
  exact ha.symm

theorem checkTinyFile_some {img : ImgRec} {r p : String}
    (h : checkTinyFile img = some (r, p)) : r = "tiny_file" := by
  unfold checkTinyFile at h
  split_ifs at h
  injection h with h2
  injection h2 with ha hb
  exact ha.symm

theorem checkUrlPattern_some {img : ImgRec} {r p : String}
    (h : checkUrlPattern img = some (r, p)) : r = "ui_pattern" := by
  unfold checkUrlPattern at h
  rw [Option.map_eq_some'] at h
  obtain ⟨q, -, hq⟩ := h
  injection hq with ha hb
  exact ha.symm

theorem checkTrackingUrl_some {img : ImgRec} {r p : String}
    (h : checkTrackingUrl img = some (r, p)) : r = "tracking_url" := by
  unfold checkTrackingUrl at h
  rw [Option.map_eq_some'] at h
  obtain ⟨q, -, hq⟩ := h
  injection hq with ha hb
  exact ha.symm

theorem checkAltPattern_some {img : ImgRec} {r p : String}
    (h : checkAltPattern img = some (r, p)) : r = "alt_pattern" := by
  rw [checkAltPattern.eq_def] at h
  simp only [] at h
  split_ifs at h
  rw [Option.map_eq_some'] at h
  obtain ⟨q, -, hq⟩ := h
  injection hq with ha hb
  exact ha.symm

theorem iconLoop_some {big : Bool} {lp : String} {ps : List String} {r p : String}
    (h : iconLoop big lp ps = some (r, p)) : r = "icon_path" := by
  induction ps with
  | nil => cases h
  | cons q rest ih =>
    unfold iconLoop at h
    split_ifs at h
    · exact ih h
    · injection h with h2
      injection h2 with ha hb
      exact ha.symm
    · exact ih h

theorem checkIconPath_some {img : ImgRec} {r p : String}
    (h : checkIconPath img = some (r, p)) : r = "icon_path" :=
  iconLoop_some h

/-- With the SVG check passed over, `_should_skip` only ever reports one
of the seven later reasons. -/
theorem should_skip_rest_reason {img : ImgRec} {r p : String}
    (hsvg : checkSvg img = none) (h : should_skip img = some (r, p)) :
    r ∈ ["tracking_pixel", "tiny_icon", "tiny_file", "ui_pattern",
         "tracking_url", "alt_pattern", "icon_path"] := by
  unfold should_skip at h
  rw [firstSome_cons_none hsvg] at h
  cases h2 : checkTrackingPixel img with
  | some v =>
    rw [firstSome_cons_some h2] at h
    obtain ⟨v1, v2⟩ := v
    injection h with h'
    obtain ⟨ha, -⟩ := Prod.mk.inj h'
    rw [← ha, (checkTrackingPixel_some h2).1]
    simp
  | none =>
  rw [firstSome_cons_none h2] at h
  cases h3 : checkTinyIcon img with
  | some v =>
    rw [firstSome_cons_some h3] at h
    obtain ⟨v1, v2⟩ := v
    injection h with h'
    obtain ⟨ha, -⟩ := Prod.mk.inj h'
    rw [← ha, checkTinyIcon_some h3]
    simp
  | none =>
  rw [firstSome_cons_none h3] at h
  cases h4 : checkTinyFile img with
  | some v =>
    rw [firstSome_cons_some h4] at h
    obtain ⟨v1, v2⟩ := v
    injection h with h'
    obtain ⟨ha, -⟩ := Prod.mk.inj h'
    rw [← ha, checkTinyFile_some h4]
    simp
  | none =>
  rw [firstSome_cons_none h4] at h
  cases h5 : checkUrlPattern img with
  | some v =>
    rw [firstSome_cons_some h5] at h
    obtain ⟨v1, v2⟩ := v
    injection h with h'
    obtain ⟨ha, -⟩ := Prod.mk.inj h'
    rw [← ha, checkUrlPattern_some h5]
    simp
  | none =>
  rw [firstSome_cons_none h5] at h
  cases h6 : checkTrackingUrl img with
  | some v =>
    rw [firstSome_cons_some h6] at h
    obtain ⟨v1, v2⟩ := v
    injection h with h'
    obtain ⟨ha, -⟩ := Prod.mk.inj h'
    rw [← ha, checkTrackingUrl_some h6]
    simp
  | none =>
  rw [firstSome_cons_none h6] at h
  cases h7 : checkAltPattern img with
  | some v =>
    rw [firstSome_cons_some h7] at h
    obtain ⟨v1, v2⟩ := v
    injection h with h'
    obtain ⟨ha, -⟩ := Prod.mk.inj h'
    rw [← ha, checkAltPattern_some h7]
    simp
  | none =>
  rw [firstSome_cons_none h7] at h
  cases h8 : checkIconPath img with
  | some v =>
    rw [firstSome_cons_some h8] at h
    obtain ⟨v1, v2⟩ := v
    injection h with h'
    obtain ⟨ha, -⟩ := Prod.mk.inj h'
    rw [← ha, checkIconPath_some h8]
    simp
  | none =>
    rw [firstSome_cons_none h8, firstSome_nil] at h
    cases h

theorem should_skip_reason {img : ImgRec} {r p : String}
    (h : should_skip img = some (r, p)) :
    r ∈ ["svg_not_supported", "tracking_pixel", "tiny_icon", "tiny_file",
         "ui_pattern", "tracking_url", "alt_pattern", "icon_path"] := by
  cases h1 : checkSvg img with
  | some v =>
    unfold should_skip at h
    rw [firstSome_cons_some h1] at h
    obtain ⟨v1, v2⟩ := v
    injection h with h'
    obtain ⟨ha, -⟩ := Prod.mk.inj h'
    rw [← ha, (checkSvg_some h1).1]
    simp
  | none =>
    have := should_skip_rest_reason h1 h
    simp only [List.mem_cons, List.not_mem_nil, or_false] at this ⊢
    tauto

theorem iconLoop_big {lp : String} {ps : List String} : iconLoop true lp ps = none := by
  induction ps with
  | nil => rfl
  | cons q rest ih =>
    unfold iconLoop
    split_ifs with hq hb
    · exact ih
    · exact absurd rfl hb
    · exact ih

theorem iconLoop_small {lp : String} {ps : List String} :
    iconLoop false lp ps =
      (ps.find? (fun q => hasSub q lp)).map (fun q => ("icon_path", q)) := by
  induction ps with
  | nil => rfl
  | cons q rest ih =>
    unfold iconLoop
    rw [List.find?_cons]
    by_cases hq : hasSub q lp = true
    · rw [if_pos hq, hq]
      rfl
    · rw [if_neg hq, Bool.of_not_eq_true hq]
      exact ih

/-- `filter_images` is the per-image decision mapped over the input. -/
theorem filter_images_eq (images : List ImgRec) :
    filter_images images =
      (images.filterMap (fun i => (decideImage i).getLeft?),
       images.filterMap (fun i => (decideImage i).getRight?)) := by
  induction images with
  | nil => rfl
  | cons img rest ih =>
    cases hd : decideImage img with
    | inl f =>
      simp only [filter_images, ih, hd, List.filterMap_cons, Sum.getLeft?, Sum.getRight?]
    | inr s =>
      simp only [filter_images, ih, hd, List.filterMap_cons, Sum.getLeft?, Sum.getRight?]

theorem filter_images_len (images : List ImgRec) :
    (filter_images images).1.length + (filter_images images).2.length = images.length := by
  induction images with
  | nil => rfl
  | cons img rest ih =>
    cases hd : decideImage img with
    | inl f =>
      simp only [filter_images, hd, List.length_cons]
      omega
    | inr s =>
      simp only [filter_images, hd, List.length_cons]
      omega

/-- Whatever the input, the skipped record's reason is drawn from the
fixed enumeration. -/
theorem decideImage_inr_reason {img : ImgRec} {s : SkippedImage}
    (h : decideImage img = .inr s) : s.skip_reason ∈ skipReasonEnum := by
  rw [decideImage.eq_def] at h
  simp only [] at h
  by_cases h0 : img.local_path.getD "" = ""
  · rw [if_pos h0] at h
    injection h with h'
    rw [← h']
    simp [skipReasonEnum]
  · rw [if_neg h0] at h
    by_cases hext : allowedExt (fileTypeOf (img.local_path.getD "")) = true
    · rw [if_neg (not_not_intro hext)] at h
      cases hss : should_skip img with
      | some rp =>
        rw [hss] at h
        obtain ⟨r0, p0⟩ := rp
        injection h with h'
        rw [← h']
        have := should_skip_reason hss
        simp only [skipReasonEnum, SkippedImage.skip_reason]
        simp only [List.mem_cons, List.not_mem_nil, or_false] at this ⊢
        tauto
      | none =>
        rw [hss] at h
        cases h
    · rw [if_pos hext] at h
      injection h with h'
      rw [← h']
      simp [skipReasonEnum]

/-- A skipped record with the SVG reason can only arise from the
`_should_skip` chain with the SVG check firing; since the extension gate
was already passed, the local path cannot end in `.svg`, so the `src`
must. -/
theorem decideImage_svg {img : ImgRec} {s : SkippedImage}
    (h : decideImage img = .inr s) (hr : s.skip_reason = "svg_not_supported") :
    endsW ".svg" (imgSrcLow img) = true ∧ endsW ".svg" (imgPathLow img) = false := by
  rw [decideImage.eq_def] at h
  simp only [] at h
  by_cases h0 : img.local_path.getD "" = ""
  · rw [if_pos h0] at h
    injection h with h'
    rw [← h'] at hr
    simp at hr
  · rw [if_neg h0] at h
    by_cases hext : allowedExt (fileTypeOf (img.local_path.getD "")) = true
    · rw [if_neg (not_not_intro hext)] at h
      cases hss : should_skip img with
      | some rp =>
        rw [hss] at h
        obtain ⟨r0, p0⟩ := rp
        injection h with h'
        rw [← h'] at hr
        have hr0 : r0 = "svg_not_supported" := hr
        have hpath : endsW ".svg" (imgPathLow img) = false := by
          by_cases hp : endsW ".svg" (imgPathLow img) = true
          · have hf := svg_end_not_allowed (img.local_path.getD "") hp
            rw [hf] at hext
            exact (Bool.false_ne_true hext).elim
          · exact Bool.of_not_eq_true hp
        cases hsvg : checkSvg img with
        | none =>
          have hmem := should_skip_rest_reason hsvg hss
          rw [hr0] at hmem
          simp at hmem
        | some v =>
          obtain ⟨r1, p1⟩ := v
          obtain ⟨-, hcond⟩ := checkSvg_some hsvg
          rw [hpath] at hcond
          simp only [Bool.false_or] at hcond
          exact ⟨hcond, hpath⟩
      | none =>
        rw [hss] at h
        cases h
    · rw [if_pos hext] at h
      injection h with h'
      rw [← h'] at hr
      simp at hr

/-! ## Claim theorems for the image filter -/

/-- C7: every input image lands in exactly one of the two output lists
(the per-image decision is a sum), the two lists' sizes add up to the
input size, and every skipped record carries a reason from the fixed
enumeration. -/
theorem c7_filter_partition (images : List ImgRec) :
    (filter_images images).1.length + (filter_images images).2.length = images.length
    ∧ (filter_images images).1 = images.filterMap (fun i => (decideImage i).getLeft?)
    ∧ (filter_images images).2 = images.filterMap (fun i => (decideImage i).getRight?)
    ∧ (∀ img : ImgRec, ((decideImage img).getLeft?).isSome ↔
        (decideImage img).getRight? = none)
    ∧ (∀ s ∈ (filter_images images).2, s.skip_reason ∈ skipReasonEnum) := by
  refine ⟨filter_images_len images, congrArg Prod.fst (filter_images_eq images),
    congrArg Prod.snd (filter_images_eq images), ?_, ?_⟩
  · intro img
    cases decideImage img <;> simp [Sum.getLeft?, Sum.getRight?]
  · intro s hs
    rw [congrArg Prod.snd (filter_images_eq images)] at hs
    rw [List.mem_filterMap] at hs
    obtain ⟨img, -, himg⟩ := hs
    have hinr : decideImage img = .inr s := by
      cases hd : decideImage img <;> rw [hd] at himg
      · cases himg
      · simp only [Sum.getRight?, Option.some.injEq] at himg
        rw [himg]
    exact decideImage_inr_reason hinr

/-- C6 counterexample: an image whose local path has an allowed `png`
extension while its `src` URL ends in `.svg` is skipped with reason
`svg_not_supported`: the reason is reachable. -/
theorem c6_svg_reachable_cex :
    (filter_images [⟨0, some "https://x.com/a.svg", "", some 300, some 300,
        some "images/a.png", 1000⟩]).2.map (fun s => s.skip_reason) =
      ["svg_not_supported"] := rfl

/-- C6 amended: the SVG reason is unreachable through the local path (an
image whose local path ends in `.svg` is always rejected by the extension
gate first), but it is produced exactly when a surviving image's `src`
URL ends in `.svg`. -/
theorem c6_svg_via_src_amended (images : List ImgRec) (s : SkippedImage)
    (hs : s ∈ (filter_images images).2)
    (hr : s.skip_reason = "svg_not_supported") :
    ∃ img ∈ images, decideImage img = .inr s ∧
      endsW ".svg" (imgSrcLow img) = true ∧
      endsW ".svg" (imgPathLow img) = false := by
  rw [congrArg Prod.snd (filter_images_eq images)] at hs
  rw [List.mem_filterMap] at hs
  obtain ⟨img, hmem, himg⟩ := hs
  have hinr : decideImage img = .inr s := by
    cases hd : decideImage img <;> rw [hd] at himg
    · cases himg
    · simp only [Sum.getRight?, Option.some.injEq] at himg
      rw [himg]
  exact ⟨img, hmem, hinr, (decideImage_svg hinr hr).1, (decideImage_svg hinr hr).2⟩

theorem c6_svg_via_src_amended_witness :
    (⟨0, "images/a.png", "svg_not_supported",
        some "SVG format not supported by Vision API", none⟩ : SkippedImage) ∈
      (filter_images [⟨0, some "https://x.com/a.svg", "", some 300, some 300,
          some "images/a.png", 1000⟩]).2 ∧
    ∃ img ∈ [(⟨0, some "https://x.com/a.svg", "", some 300, some 300,
        some "images/a.png", 1000⟩ : ImgRec)],
      decideImage img = .inr ⟨0, "images/a.png", "svg_not_supported",
        some "SVG format not supported by Vision API", none⟩ ∧
      endsW ".svg" (imgSrcLow img) = true ∧
      endsW ".svg" (imgPathLow img) = false :=
  ⟨by decide, c6_svg_via_src_amended _ _ (by decide) rfl⟩

/-- C5 counterexample: a 150x50 image at an `icn-` path survives the
filter (because one dimension exceeds 100), although both dimensions do
not exceed 100 — the claim would require it to be skipped as
`icon_path`. -/
theorem c5_icon_path_cex :
    (filter_images [⟨8, some "https://e.com/x.png", "", some 150, some 50,
        some "images/icn-big.png", 1000⟩]).2 = []
    ∧ (filter_images [⟨8, some "https://e.com/x.png", "", some 150, some 50,
        some "images/icn-big.png", 1000⟩]).1.length = 1 :=
  ⟨rfl, rfl⟩

/-- C5 amended: for an image surviving checks 1-8 whose local path
contains an icon marker, the icon rule skips it unless both dimensions
are known nonzero and at least one of them (not both) exceeds 100
pixels. -/
theorem c5_icon_path_amended (img : ImgRec) (p : String)
    (h1 : checkSvg img = none) (h2 : checkTrackingPixel img = none)
    (h3 : checkTinyIcon img = none) (h4 : checkTinyFile img = none)
    (h5 : checkUrlPattern img = none) (h6 : checkTrackingUrl img = none)
    (h7 : checkAltPattern img = none)
    (hp : icon_patterns.find? (fun q => hasSub q (imgPathLow img)) = some p) :
    should_skip img = if iconBig img then none else some ("icon_path", p) := by
  unfold should_skip
  rw [firstSome_cons_none h1, firstSome_cons_none h2, firstSome_cons_none h3,
      firstSome_cons_none h4, firstSome_cons_none h5, firstSome_cons_none h6,
      firstSome_cons_none h7]
  have hsingle : firstSome [checkIconPath img] = checkIconPath img := by
    cases hc : checkIconPath img <;> simp [firstSome, hc]
  rw [hsingle]
  unfold checkIconPath
  cases hbig : iconBig img
  · rw [iconLoop_small, hp]
    simp
  · rw [iconLoop_big]
    simp

theorem c5_icon_path_amended_witness :
    should_skip ⟨10, some "https://e.com/a.png", "", some 60, some 60,
        some "images/icn-a.png", 1000⟩ =
      if iconBig ⟨10, some "https://e.com/a.png", "", some 60, some 60,
          some "images/icn-a.png", 1000⟩ then none
      else some ("icon_path", "icn-") :=
  c5_icon_path_amended _ _ rfl rfl rfl rfl rfl rfl rfl rfl

/-- C10 counterexample: an image with unknown dimensions, an allowed
local-path extension, but a `src` ending in `.svg` is skipped with
reason `svg_not_supported`, not `tracking_pixel`. -/
theorem c10_unknown_dims_svg_cex :
    (filter_images [⟨9, some "b.svg", "", none, none, some "a.png",
        1000⟩]).2.map (fun s => s.skip_reason) = ["svg_not_supported"]
    ∧ "svg_not_supported" ≠ "tracking_pixel" :=
  ⟨rfl, by decide⟩

/-- C10 amended: an image with a valid local path, an allowed extension,
a `src` not ending in `.svg`, and both dimensions absent or zero is
skipped as a tracking pixel (missing dimensions coerce to 0 ≤ 2). -/
theorem c10_tracking_pixel_amended (img : ImgRec)
    (h0 : img.local_path.getD "" ≠ "")
    (h1 : allowedExt (fileTypeOf (img.local_path.getD "")) = true)
    (h2 : endsW ".svg" (imgSrcLow img) = false)
    (h3 : imgWidth img = 0) (h4 : imgHeight img = 0) :
    decideImage img = .inr ⟨img.index, img.local_path.getD "", "tracking_pixel",
      some "0x0", some "0x0"⟩ := by
  have hpath : endsW ".svg" (imgPathLow img) = false := by
    by_cases hp : endsW ".svg" (imgPathLow img) = true
    · have hf := svg_end_not_allowed (img.local_path.getD "") hp
      rw [hf] at h1
      exact (Bool.false_ne_true h1).elim
    · exact Bool.of_not_eq_true hp
  have hsvg : checkSvg img = none := by
    unfold checkSvg
    rw [hpath, h2]
    simp
  have htp : checkTrackingPixel img = some ("tracking_pixel", "0x0") := by
    unfold checkTrackingPixel
    rw [h3, h4]
    simp [natStr, digitsOf, digitsGo, digitChar]
  have hss : should_skip img = some ("tracking_pixel", "0x0") := by
    unfold should_skip
    rw [firstSome_cons_none hsvg, firstSome_cons_some htp]
  rw [decideImage.eq_def]
  simp only []
  rw [if_neg h0, if_neg (not_not_intro h1), hss]
  simp [h3, h4, natStr, digitsOf, digitsGo, digitChar]

/-! ## Claim theorem for the JSON repair path -/

set_option maxRecDepth 20000 in
/-- C1: on the truncated input `{"a": [1, 2, {"b": 3` (no closing brace
anywhere), `parse_json_response` raises `No JSON found in response`,
because the raw-object regex requires a `}`; and even the truncation
helper, were it reached, appends closers for the pre-strip depth and
produces the unbalanced `{"a": [1, 2]}}`, which does not parse. -/
theorem c1_truncated_json_raises :
    parse_json_response "\x7b\"a\": [1, 2, \x7b\"b\": 3" =
      .error ("No JSON found in response: \x7b\"a\": [1, 2, \x7b\"b\": 3...")
    ∧ truncate_to_valid_json "\x7b\"a\": [1, 2, \x7b\"b\": 3" =
      some "\x7b\"a\": [1, 2]\x7d\x7d"
    ∧ jsonParse "\x7b\"a\": [1, 2]\x7d\x7d" = none :=
  ⟨rfl, rfl, rfl⟩

theorem c10_tracking_pixel_amended_witness :
    decideImage ⟨5, some "https://e.com/p.jpg", "", none, none,
        some "images/p.png", 700⟩ =
      .inr ⟨5, "images/p.png", "tracking_pixel", some "0x0", some "0x0"⟩ :=
  c10_tracking_pixel_amended _ (by decide) rfl rfl rfl rfl

/-! ## Dict lemmas -/

theorem alookup_map_upd {α : Type} (m : List (String × α)) (k : String) (v : α)
    (hany : m.any (fun p => p.1 = k) = true) :
    alookup (m.map (fun p => if p.1 = k then (k, v) else p)) k = some v := by
  induction m with
  | nil => simp at hany
  | cons p t ih =>
    simp only [List.any_cons, Bool.or_eq_true, decide_eq_true_eq] at hany
    simp only [List.map_cons]
    by_cases hk : p.1 = k
    · rw [if_pos hk]
      simp only [alookup]
      simp
    · rw [if_neg hk]
      simp only [alookup]
      rw [if_neg hk]
      exact ih (hany.resolve_left hk)

theorem alookup_append_single {α : Type} (m : List (String × α)) (k : String) (v : α) :
    (∀ p ∈ m, p.1 ≠ k) → alookup (m ++ [(k, v)]) k = some v := by
  induction m with
  | nil =>
    intro _
    simp only [List.nil_append, alookup]
    simp
  | cons p t ih =>
    intro hall
    simp only [List.cons_append, alookup]
    rw [if_neg (hall p (List.mem_cons_self p t))]
    exact ih (fun q hq => hall q (List.mem_cons_of_mem p hq))

theorem alookup_aupd_self {α : Type} (m : List (String × α)) (k : String) (v : α) :
    alookup (aupd m k v) k = some v := by
  unfold aupd
  by_cases hany : m.any (fun p => p.1 = k) = true
  · rw [if_pos hany]
    exact alookup_map_upd m k v hany
  · rw [if_neg hany]
    refine alookup_append_single m k v (fun p hp hpk => hany ?_)
    rw [List.any_eq_true]
    exact ⟨p, hp, by simp [hpk]⟩

theorem alookup_map_upd_other {α : Type} (m : List (String × α)) (k : String) (v : α)
    (q : String) (hq : q ≠ k) :
    alookup (m.map (fun p => if p.1 = k then (k, v) else p)) q = alookup m q := by
  induction m with
  | nil => rfl
  | cons p t ih =>
    simp only [List.map_cons]
    by_cases hk : p.1 = k
    · rw [if_pos hk]
      simp only [alookup]
      rw [if_neg (fun e : k = q => hq e.symm), if_neg (fun e : p.1 = q => hq (e ▸ hk))]
      exact ih
    · rw [if_neg hk]
      simp only [alookup]
      by_cases hpq : p.1 = q
      · rw [if_pos hpq, if_pos hpq]
      · rw [if_neg hpq, if_neg hpq]
        exact ih

theorem alookup_append_single_other {α : Type} (m : List (String × α)) (k : String)
    (v : α) (q : String) (hq : q ≠ k) :
    alookup (m ++ [(k, v)]) q = alookup m q := by
  induction m with
  | nil =>
    simp only [List.nil_append, alookup]
    rw [if_neg (fun e : k = q => hq e.symm)]
  | cons p t ih =>
    simp only [List.cons_append, alookup]
    by_cases hpq : p.1 = q
    · rw [if_pos hpq, if_pos hpq]
    · rw [if_neg hpq, if_neg hpq]
      exact ih

theorem alookup_aupd_other {α : Type} (m : List (String × α)) (k : String) (v : α)
    (q : String) (hq : q ≠ k) : alookup (aupd m k v) q = alookup m q := by
  unfold aupd
  split_ifs
  · exact alookup_map_upd_other m k v q hq
  · exact alookup_append_single_other m k v q hq

theorem insertPairs_not_mem (ps : List (String × Section)) :
    ∀ (m : List (String × Section)) (k : String), k ∉ ps.map Prod.fst →
      alookup (insertPairs m ps) k = alookup m k := by
  induction ps with
  | nil => intro m k _; rfl
  | cons p t ih =>
    intro m k hk
    simp only [List.map_cons, List.mem_cons, not_or] at hk
    show alookup (insertPairs (aupd m p.1 p.2) t) k = alookup m k
    rw [ih _ _ hk.2]
    exact alookup_aupd_other _ _ _ _ hk.1

theorem insertPairs_mem (ps : List (String × Section)) :
    ∀ (m : List (String × Section)) (k : String) (v : Section),
      (ps.map Prod.fst).Nodup → (k, v) ∈ ps →
      alookup (insertPairs m ps) k = some v := by
  induction ps with
  | nil => intro m k v _ hm; cases hm
  | cons p t ih =>
    intro m k v hnd hm
    simp only [List.map_cons, List.nodup_cons] at hnd
    rcases List.mem_cons.mp hm with heq | hmem
    · rw [← heq] at hnd
      show alookup (insertPairs (aupd m p.1 p.2) t) k = some v
      rw [← heq]
      rw [insertPairs_not_mem t _ _ hnd.1]
      exact alookup_aupd_self _ _ _
    · show alookup (insertPairs (aupd m p.1 p.2) t) k = some v
      exact ih _ _ _ hnd.2 hmem

theorem runBatches_not_mem (oracle : Nat → Except String (List Section)) :
    ∀ (bs : List (List SchedD)) (i : Nat) (m : List (String × Section)) (k : String),
      k ∉ runKeys oracle i bs →
      alookup (runBatches oracle i m bs) k = alookup m k := by
  intro bs
  induction bs with
  | nil => intro i m k _; rfl
  | cons b t ih =>
    intro i m k hk
    simp only [runKeys, List.mem_append, not_or] at hk
    show alookup (runBatches oracle (i + 1) (insertPairs m (pairsOf oracle i b)) t) k =
      alookup m k
    rw [ih _ _ _ hk.2]
    exact insertPairs_not_mem _ _ _ hk.1

theorem runBatches_mem (oracle : Nat → Except String (List Section)) :
    ∀ (bs : List (List SchedD)) (i : Nat) (m : List (String × Section)) (j : Nat)
      (b : List SchedD) (k : String) (v : Section),
      (runKeys oracle i bs).Nodup → bs[j]? = some b →
      (k, v) ∈ pairsOf oracle (i + j) b →
      alookup (runBatches oracle i m bs) k = some v := by
  intro bs
  induction bs with
  | nil => intro i m j b k v _ hj _; simp at hj
  | cons b0 t ih =>
    intro i m j b k v hnd hj hm
    simp only [runKeys] at hnd
    rw [List.nodup_append] at hnd
    obtain ⟨hnd1, hnd2, hdisj⟩ := hnd
    cases j with
    | zero =>
      simp only [List.getElem?_cons_zero, Option.some.injEq] at hj
      rw [← hj, Nat.add_zero] at hm
      have hkmem : k ∈ (pairsOf oracle i b0).map Prod.fst :=
        List.mem_map_of_mem Prod.fst hm
      have hnot : k ∉ runKeys oracle (i + 1) t := fun hk => hdisj hkmem hk
      show alookup (runBatches oracle (i + 1) (insertPairs m (pairsOf oracle i b0)) t) k =
        some v
      rw [runBatches_not_mem oracle t (i + 1) _ k hnot]
      exact insertPairs_mem _ _ _ _ hnd1 hm
    | succ j' =>
      simp only [List.getElem?_cons_succ] at hj
      have harith : i + (j' + 1) = (i + 1) + j' := by omega
      rw [harith] at hm
      exact ih (i + 1) _ j' b k v hnd2 hj hm

/-! ## Claim theorems for the kb generator -/

/-- C2 counterexample: a resolved child with pre-existing
`data = {category: "old"}` and a group category `"new"` is rebuilt with
`data.category = "new"` — the pre-existing key is overwritten, not
preserved. -/
theorem c2_category_overwritten_cex :
    alookup ((((reconstruct_hierarchy
        [⟨some "p", some "Parent", some 1, some "parent", none,
          [⟨some "c1", some "Child", some 2, some "new", none⟩]⟩]
        [("c1", Section.mk "c1" "Child" 2 "sum" none [] [] []
            (some [("category", Json.str "old")]))]).headD
        (Section.mk "" "" 0 "" none [] [] [] none)).subsections.headD
        (Section.mk "" "" 0 "" none [] [] [] none)).data.getD []) "category" =
      some (Json.str "new")
    ∧ some (Json.str "new") ≠ some (Json.str "old") := by
  refine ⟨rfl, fun h => ?_⟩
  injection h with h1
  injection h1 with h2
  exact absurd h2 (by decide)

/-- C2 amended: when a resolved child's group carries a category, the
rebuilt child keeps every field and every pre-existing `data` key other
than `category` unchanged, and the group's category is stored under
`category`, overwriting any pre-existing entry for that key. -/
theorem c2_data_merge_amended (m : List (String × Section)) (c : ChildD)
    (s : Section) (glevel : Nat)
    (hres : resolveChild m c = some s)
    (hcat : catTruthy c.category = true) :
    rebuildChild m glevel c =
      Section.mk s.id s.title s.level s.summary s.content s.key_points s.images
        s.subsections
        (some (aupd (s.data.getD []) "category" (Json.str (c.category.getD ""))))
    ∧ alookup (aupd (s.data.getD []) "category" (Json.str (c.category.getD "")))
        "category" = some (Json.str (c.category.getD ""))
    ∧ (∀ k, k ≠ "category" →
        alookup (aupd (s.data.getD []) "category" (Json.str (c.category.getD ""))) k =
          alookup (s.data.getD []) k)
    ∧ (∀ g : GroupD, g.type = some "parent" → c ∈ g.children →
        rebuildChild m (g.level.getD 1) c ∈ (reconstructGroup m g).subsections) := by
  refine ⟨?_, alookup_aupd_self _ _ _, fun k hk => alookup_aupd_other _ _ _ _ hk, ?_⟩
  · simp [rebuildChild, hres, hcat]
  · intro g hg hc
    unfold reconstructGroup
    rw [if_pos ⟨hg, fun hnil => by rw [hnil] at hc; cases hc⟩]
    show rebuildChild m (g.level.getD 1) c ∈ g.children.map (rebuildChild m (g.level.getD 1))
    exact List.mem_map_of_mem _ hc

theorem c2_data_merge_amended_witness :
    rebuildChild
        [("c1", Section.mk "c1" "Child" 2 "sum" none [] [] []
            (some [("k0", Json.str "v0")]))] 1
        ⟨some "c1", some "Child", some 2, some "new", none⟩ =
      Section.mk "c1" "Child" 2 "sum" none [] []
        []
        (some (aupd [("k0", Json.str "v0")] "category" (Json.str "new")))
    ∧ alookup (aupd [("k0", Json.str "v0")] "category" (Json.str "new")) "category" =
        some (Json.str "new")
    ∧ (∀ k, k ≠ "category" →
        alookup (aupd [("k0", Json.str "v0")] "category" (Json.str "new")) k =
          alookup [("k0", Json.str "v0")] k)
    ∧ (∀ g : GroupD, g.type = some "parent" →
        (⟨some "c1", some "Child", some 2, some "new", none⟩ : ChildD) ∈ g.children →
        rebuildChild
            [("c1", Section.mk "c1" "Child" 2 "sum" none [] [] []
                (some [("k0", Json.str "v0")]))] (g.level.getD 1)
            ⟨some "c1", some "Child", some 2, some "new", none⟩ ∈
          (reconstructGroup
              [("c1", Section.mk "c1" "Child" 2 "sum" none [] [] []
                  (some [("k0", Json.str "v0")]))] g).subsections) :=
  c2_data_merge_amended
    [("c1", Section.mk "c1" "Child" 2 "sum" none [] [] []
        (some [("k0", Json.str "v0")]))]
    ⟨some "c1", some "Child", some 2, some "new", none⟩
    (Section.mk "c1" "Child" 2 "sum" none [] [] [] (some [("k0", Json.str "v0")]))
    1 rfl rfl

/-- C3: hierarchy reconstruction is total (one output section per group)
and resolves every group — and every child of a parent group — by exact
id lookup first, then case-insensitive title match, then an empty
placeholder. -/
theorem c3_three_tier_resolution (groups : List GroupD) (m : List (String × Section))
    (g : GroupD) (hg : g ∈ groups) :
    (reconstruct_hierarchy groups m).length = groups.length
    ∧ reconstructGroup m g ∈ reconstruct_hierarchy groups m
    ∧ (alookup m (g.id.getD "unknown") = some (resolveSection m g)
       ∨ (alookup m (g.id.getD "unknown") = none
          ∧ titleFind m (g.title.getD "") = some (resolveSection m g))
       ∨ (alookup m (g.id.getD "unknown") = none
          ∧ titleFind m (g.title.getD "") = none
          ∧ resolveSection m g = Section.mk (g.id.getD "unknown")
              (g.title.getD "Unknown") (g.level.getD 1) "" none [] [] [] none))
    ∧ ∀ c ∈ g.children, ∀ glevel : Nat,
        (∃ s, resolveChild m c = some s ∧
          (alookup m (c.id.getD "unknown") = some s
           ∨ (alookup m (c.id.getD "unknown") = none
              ∧ titleFind m (c.title.getD "") = some s)))
        ∨ (resolveChild m c = none
           ∧ (rebuildChild m glevel c).id = c.id.getD "unknown"
           ∧ (rebuildChild m glevel c).title = c.title.getD "Unknown"
           ∧ (rebuildChild m glevel c).level = glevel + 1
           ∧ (rebuildChild m glevel c).summary = ""
           ∧ (rebuildChild m glevel c).content = none
           ∧ (rebuildChild m glevel c).key_points = []
           ∧ (rebuildChild m glevel c).images = []
           ∧ (rebuildChild m glevel c).subsections = []) := by
  refine ⟨by unfold reconstruct_hierarchy; exact List.length_map _ _,
    by unfold reconstruct_hierarchy; exact List.mem_map_of_mem _ hg, ?_, ?_⟩
  · unfold resolveSection
    cases h1 : alookup m (g.id.getD "unknown") with
    | some s => left; rfl
    | none =>
      cases h2 : titleFind m (g.title.getD "") with
      | some s => right; left; exact ⟨rfl, rfl⟩
      | none => right; right; exact ⟨rfl, rfl, rfl⟩
  · intro c hc glevel
    cases hres : resolveChild m c with
    | some s =>
      left
      refine ⟨s, rfl, ?_⟩
      unfold resolveChild at hres
      cases h1 : alookup m (c.id.getD "unknown") with
      | some s' =>
        simp only [h1, Option.some.injEq] at hres
        left
        rw [hres]
      | none =>
        simp only [h1] at hres
        exact Or.inr ⟨rfl, hres⟩
    | none =>
      right
      refine ⟨rfl, ?_, ?_, ?_, ?_, ?_, ?_, ?_, ?_⟩ <;>
        simp [rebuildChild, hres, Section.id, Section.title, Section.level,
          Section.summary, Section.content, Section.key_points, Section.images,
          Section.subsections]

theorem c3_three_tier_resolution_witness :
    (reconstruct_hierarchy [(⟨none, none, none, none, none, []⟩ : GroupD)] []).length =
      [(⟨none, none, none, none, none, []⟩ : GroupD)].length
    ∧ reconstructGroup [] (⟨none, none, none, none, none, []⟩ : GroupD) ∈
        reconstruct_hierarchy [(⟨none, none, none, none, none, []⟩ : GroupD)] []
    ∧ (alookup ([] : List (String × Section)) ((none : Option String).getD "unknown") =
          some (resolveSection [] ⟨none, none, none, none, none, []⟩)
       ∨ (alookup ([] : List (String × Section)) ((none : Option String).getD "unknown") = none
          ∧ titleFind [] ((none : Option String).getD "") =
              some (resolveSection [] ⟨none, none, none, none, none, []⟩))
       ∨ (alookup ([] : List (String × Section)) ((none : Option String).getD "unknown") = none
          ∧ titleFind [] ((none : Option String).getD "") = none
          ∧ resolveSection [] ⟨none, none, none, none, none, []⟩ =
              Section.mk ((none : Option String).getD "unknown")
                ((none : Option String).getD "Unknown") ((none : Option Nat).getD 1)
                "" none [] [] [] none))
    ∧ ∀ c ∈ (⟨none, none, none, none, none, []⟩ : GroupD).children, ∀ glevel : Nat,
        (∃ s, resolveChild [] c = some s ∧
          (alookup ([] : List (String × Section)) (c.id.getD "unknown") = some s
           ∨ (alookup ([] : List (String × Section)) (c.id.getD "unknown") = none
              ∧ titleFind [] (c.title.getD "") = some s)))
        ∨ (resolveChild [] c = none
           ∧ (rebuildChild [] glevel c).id = c.id.getD "unknown"
           ∧ (rebuildChild [] glevel c).title = c.title.getD "Unknown"
           ∧ (rebuildChild [] glevel c).level = glevel + 1
           ∧ (rebuildChild [] glevel c).summary = ""
           ∧ (rebuildChild [] glevel c).content = none
           ∧ (rebuildChild [] glevel c).key_points = []
           ∧ (rebuildChild [] glevel c).images = []
           ∧ (rebuildChild [] glevel c).subsections = []) :=
  c3_three_tier_resolution _ _ _ (List.mem_singleton.mpr rfl)

/-- C4 counterexample: batch 0 (sections a,b,c,d) fails with "boom", but
batch 1 produces a section whose id is also "a"; the final map holds that
produced section under "a", not the placeholder the claim requires. -/
theorem c4_batch_isolation_cex :
    (alookup (extract_sections_loop
        (fun i => if i = 0 then .error "boom"
                  else .ok [Section.mk "a" "Done" 1 "fine" none [] [] [] none])
        [⟨some "a", some "T1", some 1⟩, ⟨some "b", some "TB", none⟩,
         ⟨some "c", none, none⟩, ⟨some "d", none, none⟩,
         ⟨some "e", none, none⟩]) "a").map Section.summary = some "fine"
    ∧ (some "fine" : Option String) ≠ some "Error extracting section: boom"
    ∧ (alookup (extract_sections_loop
        (fun i => if i = 0 then .error "boom"
                  else .ok [Section.mk "a" "Done" 1 "fine" none [] [] [] none])
        [⟨some "a", some "T1", some 1⟩, ⟨some "b", some "TB", none⟩,
         ⟨some "c", none, none⟩, ⟨some "d", none, none⟩,
         ⟨some "e", none, none⟩]) "b").map Section.title = some "TB"
    ∧ (some "TB" : Option String) ≠ some "" :=
  ⟨rfl, by decide, rfl, by decide⟩

/-- C4 amended: provided the ids written by the run (scheduled ids of
failing batches, produced ids of successful batches) are pairwise
distinct, a failing batch materializes exactly its placeholders and every
other batch's produced sections are present unchanged. -/
theorem c4_batch_isolation_amended (oracle : Nat → Except String (List Section))
    (sections : List SchedD)
    (hnodup : (runKeys oracle 0 (chunks4 sections)).Nodup) :
    (∀ j b e, (chunks4 sections)[j]? = some b → oracle j = .error e →
      ∀ s ∈ b, alookup (extract_sections_loop oracle sections) (s.id.getD "unknown") =
        some (placeholderFor s e))
    ∧ (∀ j b secs, (chunks4 sections)[j]? = some b → oracle j = .ok secs →
      ∀ t ∈ secs, alookup (extract_sections_loop oracle sections) t.id = some t) := by
  constructor
  · intro j b e hj he s hs
    unfold extract_sections_loop
    apply runBatches_mem oracle (chunks4 sections) 0 [] j b _ _ hnodup hj
    rw [Nat.zero_add]
    unfold pairsOf
    rw [he]
    exact List.mem_map_of_mem _ hs
  · intro j b secs hj ho t ht
    unfold extract_sections_loop
    apply runBatches_mem oracle (chunks4 sections) 0 [] j b _ _ hnodup hj
    rw [Nat.zero_add]
    unfold pairsOf
    rw [ho]
    exact List.mem_map_of_mem _ ht

theorem c4_batch_isolation_amended_witness :
    (runKeys (fun i => if i = 0 then .error "boom" else .ok [])
        0 (chunks4 [⟨some "a", some "T1", some 1⟩, ⟨some "b", none, none⟩,
          ⟨some "c", none, none⟩, ⟨some "d", none, none⟩,
          ⟨some "e", none, none⟩])).Nodup
    ∧ alookup (extract_sections_loop
        (fun i => if i = 0 then .error "boom" else .ok [])
        [⟨some "a", some "T1", some 1⟩, ⟨some "b", none, none⟩,
         ⟨some "c", none, none⟩, ⟨some "d", none, none⟩,
         ⟨some "e", none, none⟩]) "a" =
      some (placeholderFor ⟨some "a", some "T1", some 1⟩ "boom") :=
  ⟨by decide,
    (c4_batch_isolation_amended
        (fun i => if i = 0 then .error "boom" else .ok [])
        [⟨some "a", some "T1", some 1⟩, ⟨some "b", none, none⟩,
         ⟨some "c", none, none⟩, ⟨some "d", none, none⟩,
         ⟨some "e", none, none⟩] (by decide)).1 0
      [⟨some "a", some "T1", some 1⟩, ⟨some "b", none, none⟩,
       ⟨some "c", none, none⟩, ⟨some "d", none, none⟩] "boom" rfl rfl
      ⟨some "a", some "T1", some 1⟩ (by decide)⟩

/-! ## Claim theorem for the image classifier -/

/-- C9: any model verdict that reconciles to a local image and whose
category is in `INCLUDE_CATEGORIES` produces an entry in the included
list, regardless of the model's `include` boolean. -/
theorem c9_category_override (cls : List Classification)
    (idmap : List (String × FilteredImage)) (c : Classification)
    (img : FilteredImage) (hc : c ∈ cls)
    (himg : findImage idmap (c.image_id.getD "") = some img)
    (hcat : (c.category.getD "decorative_other") ∈ INCLUDE_CATEGORIES) :
    mkIncluded img c ∈ (classify_loop cls idmap).1 := by
  induction cls with
  | nil => cases hc
  | cons c0 rest ih =>
    rcases List.mem_cons.mp hc with rfl | hmem
    · have hcond : (INCLUDE_CATEGORIES.contains (c.category.getD "decorative_other")
          || c.includeFlag.getD false) = true := by
        simp only [Bool.or_eq_true]
        left
        exact List.elem_eq_true_of_mem hcat
      show mkIncluded img c ∈ (classify_loop (c :: rest) idmap).1
      simp only [classify_loop, himg]
      rw [if_pos hcond]
      exact List.mem_cons_self _ _
    · show mkIncluded img c ∈ (classify_loop (c0 :: rest) idmap).1
      simp only [classify_loop]
      cases h0 : findImage idmap (c0.image_id.getD "") with
      | none => exact ih hmem
      | some img0 =>
        dsimp only
        by_cases hcnd : (INCLUDE_CATEGORIES.contains (c0.category.getD "decorative_other")
            || c0.includeFlag.getD false) = true
        · rw [if_pos hcnd]
          exact List.mem_cons_of_mem _ (ih hmem)
        · rw [if_neg hcnd]
          exact ih hmem

theorem c9_category_override_witness :
    findImage [("img_000", (⟨0, "images/a.png", "https://a", "", none, none, 0,
        "png"⟩ : FilteredImage))] "img_000" =
      some ⟨0, "images/a.png", "https://a", "", none, none, 0, "png"⟩
    ∧ ("product_ui" ∈ INCLUDE_CATEGORIES)
    ∧ mkIncluded ⟨0, "images/a.png", "https://a", "", none, none, 0, "png"⟩
        ⟨some "img_000", some false, some "product_ui", none, none, none, none, none⟩ ∈
      (classify_loop
        [⟨some "img_000", some false, some "product_ui", none, none, none, none, none⟩]
        [("img_000", ⟨0, "images/a.png", "https://a", "", none, none, 0, "png"⟩)]).1 :=
  ⟨rfl, by decide,
    c9_category_override
      [⟨some "img_000", some false, some "product_ui", none, none, none, none, none⟩]
      [("img_000", ⟨0, "images/a.png", "https://a", "", none, none, 0, "png"⟩)]
      ⟨some "img_000", some false, some "product_ui", none, none, none, none, none⟩
      ⟨0, "images/a.png", "https://a", "", none, none, 0, "png"⟩
      (List.mem_singleton.mpr rfl) rfl (by decide)⟩

/-! ## Claim theorem for section-id uniqueness -/

theorem digitVal_digitChar (n : Nat) (h : n < 10) : digitVal (digitChar n) = n := by
  interval_cases n <;> rfl

theorem decodeDigits_append (xs : List Char) (c : Char) :
    decodeDigits (xs ++ [c]) = 10 * decodeDigits xs + digitVal c := by
  unfold decodeDigits
  rw [List.foldl_append]
  rfl

theorem digitsGo_decode : ∀ (fuel n : Nat), n < fuel →
    decodeDigits (digitsGo fuel n) = n := by
  intro fuel
  induction fuel with
  | zero => intro n h; omega
  | succ f ih =>
    intro n h
    unfold digitsGo
    by_cases h10 : n < 10
    · rw [if_pos h10]
      have hone : decodeDigits [digitChar n] = digitVal (digitChar n) := by
        unfold decodeDigits
        simp [List.foldl]
      rw [hone, digitVal_digitChar n h10]
    · rw [if_neg h10, decodeDigits_append, ih (n / 10) (by omega),
        digitVal_digitChar _ (by omega)]
      omega

theorem digitsOf_inj {a b : Nat} (h : digitsOf a = digitsOf b) : a = b := by
  have ha := digitsGo_decode (a + 1) a (Nat.lt_succ_self a)
  have hb := digitsGo_decode (b + 1) b (Nat.lt_succ_self b)
  unfold digitsOf at h
  rw [h] at ha
  exact ha.symm.trans hb

theorem digitsOf_ne_nil (n : Nat) : digitsOf n ≠ [] := by
  unfold digitsOf digitsGo
  split_ifs <;> simp

theorem candSlug_inj (b : String) {i j : Nat} (h : candSlug b i = candSlug b j) :
    i = j := by
  have hlen1 : ("_" : String).length = 1 := rfl
  have hnat : ∀ n : Nat, (natStr n).length ≠ 0 := by
    intro n
    show (digitsOf n).length ≠ 0
    simpa using digitsOf_ne_nil n
  unfold candSlug at h
  by_cases hi : i = 0 <;> by_cases hj : j = 0
  · rw [hi, hj]
  · rw [if_pos hi, if_neg hj] at h
    have hlen := congrArg String.length h
    simp only [String.length_append, hlen1] at hlen
    have := hnat j
    omega
  · rw [if_neg hi, if_pos hj] at h
    have hlen := congrArg String.length h
    simp only [String.length_append, hlen1] at hlen
    have := hnat i
    omega
  · rw [if_neg hi, if_neg hj] at h
    have hd := congrArg String.data h
    simp only [String.data_append] at hd
    have hd' : (b.data ++ "_".data) ++ digitsOf i = (b.data ++ "_".data) ++ digitsOf j := hd
    exact digitsOf_inj (List.append_cancel_left hd')

theorem searchFresh_some {b : String} {seen : List String} :
    ∀ (fuel k : Nat) (r : String), searchFresh b seen fuel k = some r → r ∉ seen := by
  intro fuel
  induction fuel with
  | zero => intro k r h; cases h
  | succ f ih =>
    intro k r h
    unfold searchFresh at h
    split_ifs at h with hmem
    · exact ih _ _ h
    · injection h with h'
      rw [← h']
      exact hmem

theorem searchFresh_none {b : String} {seen : List String} :
    ∀ (fuel k : Nat), searchFresh b seen fuel k = none →
      ∀ j, j < fuel → candSlug b (k + j) ∈ seen := by
  intro fuel
  induction fuel with
  | zero => intro k h j hj; omega
  | succ f ih =>
    intro k h j hj
    unfold searchFresh at h
    split_ifs at h with hmem
    · cases j with
      | zero => simpa using hmem
      | succ j' =>
        have hrec := ih (k + 1) h j' (by omega)
        have harith : k + (j' + 1) = (k + 1) + j' := by omega
        rw [harith]
        exact hrec

theorem searchFresh_total (b : String) (seen : List String) :
    searchFresh b seen (seen.length + 2) 0 ≠ none := by
  intro hnone
  have hall := searchFresh_none _ 0 hnone
  have hsub : (Finset.range (seen.length + 2)).image (candSlug b) ⊆ seen.toFinset := by
    intro x hx
    rw [Finset.mem_image] at hx
    obtain ⟨j, hj, rfl⟩ := hx
    rw [Finset.mem_range] at hj
    rw [List.mem_toFinset]
    simpa using hall j hj
  have hcard := Finset.card_le_card hsub
  rw [Finset.card_image_of_injective _ (fun i j hcand => candSlug_inj b hcand),
    Finset.card_range] at hcard
  have := List.toFinset_card_le seen
  omega

theorem generate_unique_id_fresh (t : String) (seen : List String) :
    (generate_unique_id t seen).1 ∉ seen := by
  unfold generate_unique_id
  simp only []
  cases hs : searchFresh (slugOf t) seen (seen.length + 2) 0 with
  | some s => exact searchFresh_some _ _ _ hs
  | none => exact absurd hs (searchFresh_total _ _)

theorem generate_unique_id_snd (t : String) (seen : List String) :
    (generate_unique_id t seen).2 = (generate_unique_id t seen).1 :: seen := by
  unfold generate_unique_id
  simp only []
  cases searchFresh (slugOf t) seen (seen.length + 2) 0 <;> rfl

theorem genIds_not_mem : ∀ (ts seen : List String) (x : String),
    x ∈ genIds ts seen → x ∉ seen := by
  intro ts
  induction ts with
  | nil => intro seen x h; cases h
  | cons t ts' ih =>
    intro seen x h
    simp only [genIds] at h
    rcases List.mem_cons.mp h with rfl | hmem
    · exact generate_unique_id_fresh t seen
    · intro hx
      have h2 := ih _ _ hmem
      rw [generate_unique_id_snd] at h2
      exact h2 (List.mem_cons_of_mem _ hx)

theorem genIds_nodup : ∀ (ts seen : List String), (genIds ts seen).Nodup := by
  intro ts
  induction ts with
  | nil => intro seen; exact List.nodup_nil
  | cons t ts' ih =>
    intro seen
    simp only [genIds]
    rw [List.nodup_cons]
    constructor
    · intro hmem
      have hnm := genIds_not_mem _ _ _ hmem
      rw [generate_unique_id_snd] at hnm
      exact hnm (List.mem_cons_self _ _)
    · exact ih _

/-- C8: the ids emitted by one `parse()` call — slugified titles
disambiguated against the parse-scoped seen-set — are pairwise
distinct, for every stream of titles. -/
theorem c8_section_ids_nodup (titles : List String) : (parseIds titles).Nodup :=
  genIds_nodup titles []

end HtmlKB
